import Mathlib

/-!
# libpostal-rest: a verification development of `main.go`

The program is an HTTP shim over two address-normalization functions of the
gopostal library.  This file embeds

* the Go values the handlers manipulate (slices with their nil/non-nil
  distinction, the request and response structs of `main.go`);
* the two `encoding/json` entry points the handlers call, `json.Unmarshal` and
  `json.Marshal`, following the documented behaviour of the Go standard library;
* the `http.ResponseWriter` operations the handlers use;
* the five handlers and the start-up part of `main`.

Request bodies and Go strings are modelled as Unicode text (`String`).
The gopostal functions `expand.ExpandAddress` and `parser.ParseAddress` are
parameters of the handlers.
-/

namespace LibpostalRest

/-! ## Go slices -/

/-- A Go slice value as the handlers see it: either the nil slice or a slice
with the given elements.  `len` of both the nil slice and `mk []` is zero, but
`json.Marshal` tells them apart. -/
inductive GoSlice (α : Type) where
  | nil : GoSlice α
  | mk (elems : List α) : GoSlice α
deriving DecidableEq, Repr

namespace GoSlice

variable {α : Type}

/-- The elements of a slice, the nil slice having none. -/
def toList : GoSlice α → List α
  | nil => []
  | mk xs => xs

/-- Go's `len(s)`. -/
def len (s : GoSlice α) : Nat := s.toList.length

/-- Go's `s[i]`; `none` is the index-out-of-range panic. -/
def index (s : GoSlice α) (i : Nat) : Option α := s.toList[i]?

/-- Go's `append(s, x)`: the result is never nil. -/
def append (s : GoSlice α) (x : α) : GoSlice α := mk (s.toList ++ [x])

/-- Whether the slice is the nil slice. -/
def isNil : GoSlice α → Bool
  | nil => true
  | mk _ => false

end GoSlice

/-! ## JSON values and the scanner of `encoding/json` -/

/-- A JSON value; object members are kept in input order, duplicates included. -/
inductive JSON where
  | null : JSON
  | bool (b : Bool) : JSON
  | number (lit : List Char) : JSON
  | string (s : List Char) : JSON
  | array (elems : List JSON) : JSON
  | object (members : List (List Char × JSON)) : JSON
deriving Repr

/-- The scanner's `isSpace`. -/
def isSpace (c : Char) : Bool :=
  c.toNat = 32 || c.toNat = 9 || c.toNat = 13 || c.toNat = 10

/-- A decimal digit. -/
def isDigit (c : Char) : Bool := 48 ≤ c.toNat && c.toNat ≤ 57

/-- The value of a hexadecimal digit, as the scanner and `getu4` accept it. -/
def hexVal (c : Char) : Option Nat :=
  let n := c.toNat
  if 48 ≤ n ∧ n ≤ 57 then some (n - 48)
  else if 97 ≤ n ∧ n ≤ 102 then some (n - 97 + 10)
  else if 65 ≤ n ∧ n ≤ 70 then some (n - 65 + 10)
  else none

/-- The replacement character U+FFFD. -/
def replacementChar : Char := Char.ofNat 0xFFFD

/-- The character a one-letter escape stands for (`unquote`'s switch). -/
def escapeChar (e : Char) : Char :=
  if e.toNat = 98 then Char.ofNat 8          -- \b
  else if e.toNat = 102 then Char.ofNat 12   -- \f
  else if e.toNat = 110 then Char.ofNat 10   -- \n
  else if e.toNat = 114 then Char.ofNat 13   -- \r
  else if e.toNat = 116 then Char.ofNat 9    -- \t
  else e                                     -- \" \\ \/

/-- Where `unquote` stands inside the literal: between characters, right after
a backslash, or inside the four digits of a `\u` escape. -/
inductive UnquoteMode where
  | plain
  | esc
  | escU (acc : Nat) (seen : Nat)
deriving Repr

/-- The state of `unquote`: the output so far (most recent first), the high
surrogate of a `\u` escape that still waits for its low surrogate, and the mode. -/
structure Unquote where
  out : List Char
  pending : Option Nat
  mode : UnquoteMode
deriving Repr

namespace Unquote

/-- An unpaired surrogate becomes U+FFFD. -/
def flush (u : Unquote) : Unquote :=
  match u.pending with
  | none => u
  | some _ => { u with out := replacementChar :: u.out, pending := none }

/-- The code unit `rr` of a complete `\uXXXX` escape: it closes a pending pair,
opens one, or stands for itself. -/
def unit (u : Unquote) (rr : Nat) : Unquote :=
  match u.pending with
  | some hi =>
    if 0xDC00 ≤ rr ∧ rr < 0xE000 then
      { out := Char.ofNat ((hi - 0xD800) * 1024 + (rr - 0xDC00) + 0x10000) :: u.out,
        pending := none, mode := .plain }
    else if 0xD800 ≤ rr ∧ rr < 0xDC00 then
      { out := replacementChar :: u.out, pending := some rr, mode := .plain }
    else { out := Char.ofNat rr :: replacementChar :: u.out, pending := none, mode := .plain }
  | none =>
    if 0xD800 ≤ rr ∧ rr < 0xDC00 then { u with pending := some rr, mode := .plain }
    else if 0xDC00 ≤ rr ∧ rr < 0xE000 then { u with out := replacementChar :: u.out, mode := .plain }
    else { u with out := Char.ofNat rr :: u.out, mode := .plain }

/-- One character of the literal. -/
def next (u : Unquote) (c : Char) : Unquote :=
  match u.mode with
  | .plain =>
    if c.toNat = 92 then { u with mode := .esc }
    else { u.flush with out := c :: u.flush.out }
  | .esc =>
    if c.toNat = 117 then { u with mode := .escU 0 0 }
    else { u.flush with out := escapeChar c :: u.flush.out, mode := .plain }
  | .escU acc seen =>
    let acc1 := acc * 16 + (hexVal c).getD 0
    if seen < 3 then { u with mode := .escU acc1 (seen + 1) } else u.unit acc1

end Unquote

/-- Go's `unquote` on the contents of a string literal the scanner accepted:
escapes are replaced, a surrogate pair of `\u` escapes becomes one character and
an unpaired surrogate becomes U+FFFD. -/
def unquote (raw : List Char) : List Char :=
  (raw.foldl Unquote.next { out := [], pending := none, mode := .plain }).flush.out.reverse

/-- An entry of the scanner's `parseState` stack, carrying the part of the
container read so far (most recent first). -/
inductive Frame where
  /-- Go's `parseObjectKey`: before a key (`none`) or between key and colon. -/
  | objectKey (done : List (List Char × JSON)) (key : Option (List Char)) : Frame
  /-- Go's `parseObjectValue`: before the value of `key`, or after it (`none`). -/
  | objectValue (done : List (List Char × JSON)) (key : Option (List Char)) : Frame
  /-- Go's `parseArrayValue`. -/
  | arrayValue (done : List JSON) : Frame
deriving Repr

/-- The scanner's step functions.  String and number states carry the literal
read so far (most recent character first); `lit` stands for the states that
spell out `true`, `false` and `null`. -/
inductive Step where
  | beginValueOrEmpty | beginValue | beginStringOrEmpty | beginString
  | endValue | endTop
  | inString (raw : List Char)
  | inStringEsc (raw : List Char)
  | inStringEscU (raw : List Char) (seen : Nat)
  | neg (raw : List Char) | one (raw : List Char) | zero (raw : List Char)
  | dot (raw : List Char) | dot0 (raw : List Char)
  | e (raw : List Char) | eSign (raw : List Char) | e0 (raw : List Char)
  | lit (rest : List Char) (v : JSON)
  | error
deriving Repr

/-- The scanner: the current step function, the `parseState` stack and the
completed top-level value. -/
structure Scanner where
  step : Step
  parseState : List Frame
  top : Option JSON
deriving Repr

/-- Go's `maxNestingDepth`. -/
def maxNestingDepth : Nat := 10000

namespace Scanner

/-- The scanner after `reset`. -/
def reset : Scanner := { step := .beginValue, parseState := [], top := none }

/-- The scanner after `s.error`. -/
def fail (s : Scanner) : Scanner := { s with step := .error }

/-- A value has been read in full: it goes into the innermost open container,
or becomes the top-level value; the scanner continues in `stateEndValue`. -/
def deliver (s : Scanner) (v : JSON) : Scanner :=
  match s.parseState with
  | [] => { s with step := .endValue, top := some v }
  | .arrayValue done :: fs => { s with step := .endValue, parseState := .arrayValue (v :: done) :: fs }
  | .objectValue done (some k) :: fs =>
    { s with step := .endValue, parseState := .objectValue ((k, v) :: done) none :: fs }
  | .objectKey done none :: fs =>
    match v with
    | .string k => { s with step := .endValue, parseState := .objectKey done (some k) :: fs }
    | _ => s.fail
  | _ => s.fail

/-- Go's `pushParseState`. -/
def push (s : Scanner) (f : Frame) (next : Step) : Scanner :=
  if s.parseState.length + 1 ≤ maxNestingDepth then
    { s with step := next, parseState := f :: s.parseState }
  else s.fail

/-- Go's `stateEndValue`, with `stateEndTop` for an empty stack. -/
def endValue (s : Scanner) (c : Char) : Scanner :=
  match s.parseState with
  | [] => if isSpace c then { s with step := .endTop } else s.fail
  | f :: fs =>
    if isSpace c then { s with step := .endValue }
    else
      match f with
      | .objectKey done (some k) =>
        if c.toNat = 58 then { s with step := .beginValue, parseState := .objectValue done (some k) :: fs }
        else s.fail
      | .objectValue done none =>
        if c.toNat = 44 then { s with step := .beginString, parseState := .objectKey done none :: fs }
        else if c.toNat = 125 then deliver { s with parseState := fs } (.object done.reverse)
        else s.fail
      | .arrayValue done =>
        if c.toNat = 44 then { s with step := .beginValue }
        else if c.toNat = 93 then deliver { s with parseState := fs } (.array done.reverse)
        else s.fail
      | _ => s.fail

/-- Go's `stateBeginValue`. -/
def beginValue (s : Scanner) (c : Char) : Scanner :=
  if isSpace c then s
  else if c.toNat = 123 then s.push (.objectKey [] none) .beginStringOrEmpty
  else if c.toNat = 91 then s.push (.arrayValue []) .beginValueOrEmpty
  else if c.toNat = 34 then { s with step := .inString [] }
  else if c.toNat = 45 then { s with step := .neg [c] }
  else if c.toNat = 48 then { s with step := .zero [c] }
  else if c.toNat = 116 then { s with step := .lit [Char.ofNat 114, Char.ofNat 117, Char.ofNat 101] (.bool true) }
  else if c.toNat = 102 then
    { s with step := .lit [Char.ofNat 97, Char.ofNat 108, Char.ofNat 115, Char.ofNat 101] (.bool false) }
  else if c.toNat = 110 then { s with step := .lit [Char.ofNat 117, Char.ofNat 108, Char.ofNat 108] .null }
  else if 49 ≤ c.toNat ∧ c.toNat ≤ 57 then { s with step := .one [c] }
  else s.fail

/-- Go's `stateBeginString`. -/
def beginString (s : Scanner) (c : Char) : Scanner :=
  if isSpace c then s
  else if c.toNat = 34 then { s with step := .inString [] }
  else s.fail

/-- One byte through the scanner's current step function. -/
def next (s : Scanner) (c : Char) : Scanner :=
  match s.step with
  | .error => s
  | .endTop => if isSpace c then s else s.fail
  | .endValue => s.endValue c
  | .beginValue => s.beginValue c
  | .beginValueOrEmpty =>
    if isSpace c then s
    else if c.toNat = 93 then s.endValue c
    else s.beginValue c
  | .beginStringOrEmpty =>
    if isSpace c then s
    else if c.toNat = 125 then
      match s.parseState with
      | .objectKey done none :: fs => endValue { s with parseState := .objectValue done none :: fs } c
      | _ => s.fail
    else s.beginString c
  | .beginString => s.beginString c
  | .inString raw =>
    if c.toNat = 34 then s.deliver (.string (unquote raw.reverse))
    else if c.toNat = 92 then { s with step := .inStringEsc (c :: raw) }
    else if c.toNat < 32 then s.fail
    else { s with step := .inString (c :: raw) }
  | .inStringEsc raw =>
    if c.toNat = 98 ∨ c.toNat = 102 ∨ c.toNat = 110 ∨ c.toNat = 114 ∨ c.toNat = 116
        ∨ c.toNat = 92 ∨ c.toNat = 47 ∨ c.toNat = 34 then
      { s with step := .inString (c :: raw) }
    else if c.toNat = 117 then { s with step := .inStringEscU (c :: raw) 0 }
    else s.fail
  | .inStringEscU raw seen =>
    if (hexVal c).isSome then
      if seen < 3 then { s with step := .inStringEscU (c :: raw) (seen + 1) }
      else { s with step := .inString (c :: raw) }
    else s.fail
  | .neg raw =>
    if c.toNat = 48 then { s with step := .zero (c :: raw) }
    else if 49 ≤ c.toNat ∧ c.toNat ≤ 57 then { s with step := .one (c :: raw) }
    else s.fail
  | .one raw =>
    if isDigit c then { s with step := .one (c :: raw) }
    else if c.toNat = 46 then { s with step := .dot (c :: raw) }
    else if c.toNat = 101 ∨ c.toNat = 69 then { s with step := .e (c :: raw) }
    else (s.deliver (.number raw.reverse)).endValue c
  | .zero raw =>
    if c.toNat = 46 then { s with step := .dot (c :: raw) }
    else if c.toNat = 101 ∨ c.toNat = 69 then { s with step := .e (c :: raw) }
    else (s.deliver (.number raw.reverse)).endValue c
  | .dot raw => if isDigit c then { s with step := .dot0 (c :: raw) } else s.fail
  | .dot0 raw =>
    if isDigit c then { s with step := .dot0 (c :: raw) }
    else if c.toNat = 101 ∨ c.toNat = 69 then { s with step := .e (c :: raw) }
    else (s.deliver (.number raw.reverse)).endValue c
  | .e raw =>
    if c.toNat = 43 ∨ c.toNat = 45 then { s with step := .eSign (c :: raw) }
    else if isDigit c then { s with step := .e0 (c :: raw) }
    else s.fail
  | .eSign raw => if isDigit c then { s with step := .e0 (c :: raw) } else s.fail
  | .e0 raw =>
    if isDigit c then { s with step := .e0 (c :: raw) }
    else (s.deliver (.number raw.reverse)).endValue c
  | .lit rest v =>
    match rest with
    | [] => s.fail
    | x :: xs =>
      if c = x then
        match xs with
        | [] => s.deliver v
        | _ => { s with step := .lit xs v }
      else s.fail

/-- Go's `eof`: the value read, or `none` for a syntax error. -/
def eof (s : Scanner) : Option JSON :=
  match s.step with
  | .error => none
  | .endTop => s.top
  | _ =>
    let s1 := s.next (Char.ofNat 32)
    match s1.step with
    | .endTop => s1.top
    | _ => none

end Scanner

/-- Go's `checkValid` together with the value that the decoder then reads:
`none` when the data is not one syntactically valid JSON value. -/
def parseJSON (data : String) : Option JSON :=
  (data.data.foldl Scanner.next Scanner.reset).eof

/-! ## `json.Unmarshal` into the request structs of `main.go` -/

/-- The request body of `/expand` and `/parser`: `type Request struct`. -/
structure Request where
  Query : String := ""
deriving DecidableEq, Repr

/-- The element type of `BulkRequest.Queries` (an anonymous struct in `main.go`). -/
structure BulkQuery where
  QueryId : String := ""
  Query : String := ""
deriving DecidableEq, Repr

/-- The request body of `/bulk/expand` and `/bulk/parser`: `type BulkRequest struct`. -/
structure BulkRequest where
  Queries : GoSlice BulkQuery := .nil
deriving DecidableEq, Repr

/-- The two kinds of error `json.Unmarshal` returns for these types. -/
inductive UnmarshalError where
  | SyntaxError
  | UnmarshalTypeError
deriving DecidableEq, Repr

/-- The decoder's `saveError`: the earliest error is the one reported. -/
def saveError (saved : Option UnmarshalError) (err : UnmarshalError) : Option UnmarshalError :=
  match saved with
  | none => some err
  | some e => some e

/-- Case folding of one character of an object key, as far as it matters for a
match against the ASCII field names of `main.go`: ASCII letters, and the two
non-ASCII characters whose simple case folding is an ASCII letter
(U+017F for `s`, U+212A for `k`). -/
def foldChar (c : Char) : Char :=
  if 97 ≤ c.toNat ∧ c.toNat ≤ 122 then Char.ofNat (c.toNat - 32)
  else if c.toNat = 0x17F then Char.ofNat 83
  else if c.toNat = 0x212A then Char.ofNat 75
  else c

/-- Whether a key matches a field name up to case. -/
def equalFold (name key : List Char) : Bool := name.map foldChar = key.map foldChar

/-- The first position at which `p` holds. -/
def firstIndex (p : List Char → Bool) : List (List Char) → Option Nat
  | [] => none
  | n :: ns => if p n then some 0 else (firstIndex p ns).map (· + 1)

/-- The decoder's choice of struct field for an object key: the field whose
JSON name equals the key, otherwise the first one that equals it up to case. -/
def findField (names : List String) (key : List Char) : Option Nat :=
  match firstIndex (fun n => n = key) (names.map String.data) with
  | some i => some i
  | none => firstIndex (fun n => equalFold n key) (names.map String.data)

/-- A JSON value decoded into a Go `string`: a string is stored, `null` leaves
the variable alone, anything else is an `UnmarshalTypeError` and is skipped. -/
def storeString (v : JSON) (dst : String) (saved : Option UnmarshalError) :
    String × Option UnmarshalError :=
  match v with
  | .string s => (String.mk s, saved)
  | .null => (dst, saved)
  | _ => (dst, saveError saved .UnmarshalTypeError)

namespace Request

/-- One object member decoded into a `Request`. -/
def decodeMember (st : Request × Option UnmarshalError) (m : List Char × JSON) :
    Request × Option UnmarshalError :=
  match findField ["query"] m.1 with
  | some _ =>
    let r := storeString m.2 st.1.Query st.2
    ({ Query := r.1 }, r.2)
  | none => st

/-- A JSON value decoded into a `Request`. -/
def decode (v : JSON) (req : Request) : Request × Option UnmarshalError :=
  match v with
  | .object ms => ms.foldl decodeMember (req, none)
  | .null => (req, none)
  | _ => (req, some .UnmarshalTypeError)

/-- Go's `json.Unmarshal(data, &req)`: the value of `req` afterwards and the
error returned.  Data that is not valid JSON leaves `req` untouched. -/
def Unmarshal (data : String) (req : Request) : Request × Option UnmarshalError :=
  match parseJSON data with
  | none => (req, some .SyntaxError)
  | some v => decode v req

end Request

namespace BulkQuery

/-- One object member decoded into an element of `Queries`. -/
def decodeMember (st : BulkQuery × Option UnmarshalError) (m : List Char × JSON) :
    BulkQuery × Option UnmarshalError :=
  match findField ["query_id", "query"] m.1 with
  | some 0 =>
    let r := storeString m.2 st.1.QueryId st.2
    ({ st.1 with QueryId := r.1 }, r.2)
  | some _ =>
    let r := storeString m.2 st.1.Query st.2
    ({ st.1 with Query := r.1 }, r.2)
  | none => st

/-- A JSON value decoded into an element of `Queries`. -/
def decode (v : JSON) (dst : BulkQuery) (saved : Option UnmarshalError) :
    BulkQuery × Option UnmarshalError :=
  match v with
  | .object ms => ms.foldl decodeMember (dst, saved)
  | .null => (dst, saved)
  | _ => (dst, saveError saved .UnmarshalTypeError)

end BulkQuery

/-- The slice variable `req.Queries` while it is decoded into, with its backing
array.  The decoder reuses the array when the key occurs again, and the
elements already there are decoded into, not reset.  `array` is the part of the
backing array that has been written; the capacity beyond it holds zero values. -/
structure SliceVar where
  isNil : Bool := true
  array : List BulkQuery := []
  len : Nat := 0
deriving Repr

namespace SliceVar

/-- The slice value the variable holds. -/
def value (v : SliceVar) : GoSlice BulkQuery :=
  if v.isNil then .nil else .mk (v.array.take v.len)

/-- One element of a JSON array, at index `st.2.1`, in the decoder's `array`:
the slice is extended by one element if it is too short, and the element is
decoded into that position. -/
def decodeElem (st : SliceVar × Nat × Option UnmarshalError) (e : JSON) :
    SliceVar × Nat × Option UnmarshalError :=
  let v := st.1
  let i := st.2.1
  let v := if v.array.length ≤ i then { v with isNil := false, array := v.array ++ [{}] } else v
  let v := if v.len ≤ i then { v with len := i + 1 } else v
  let r := BulkQuery.decode e (v.array.getD i {}) st.2.2
  ({ v with array := v.array.set i r.1 }, i + 1, r.2)

/-- The decoder's `array` for a slice: the elements are decoded in order, the
length is set to their number, and an empty array gives a fresh empty slice. -/
def decodeArray (es : List JSON) (v : SliceVar) (saved : Option UnmarshalError) :
    SliceVar × Option UnmarshalError :=
  let r := es.foldl decodeElem (v, 0, saved)
  let v := r.1
  let i := r.2.1
  let v := if i < v.len then { v with len := i } else v
  let v := if i = 0 then { isNil := false, array := [], len := 0 } else v
  (v, r.2.2)

/-- A JSON value decoded into the slice: an array is decoded element by
element, `null` makes the slice nil, anything else is an `UnmarshalTypeError`. -/
def decode (j : JSON) (v : SliceVar) (saved : Option UnmarshalError) :
    SliceVar × Option UnmarshalError :=
  match j with
  | .array es => decodeArray es v saved
  | .null => ({}, saved)
  | _ => (v, saveError saved .UnmarshalTypeError)

end SliceVar

namespace BulkRequest

/-- One object member decoded into a `BulkRequest`. -/
def decodeMember (st : SliceVar × Option UnmarshalError) (m : List Char × JSON) :
    SliceVar × Option UnmarshalError :=
  match findField ["queries"] m.1 with
  | some _ => SliceVar.decode m.2 st.1 st.2
  | none => st

/-- A JSON value decoded into a `BulkRequest` whose `Queries` is held in `v`. -/
def decode (j : JSON) (v : SliceVar) : SliceVar × Option UnmarshalError :=
  match j with
  | .object ms => ms.foldl decodeMember (v, none)
  | .null => (v, none)
  | _ => (v, some .UnmarshalTypeError)

/-- Go's `json.Unmarshal(data, &req)` for a `req` that was just declared
(`var req BulkRequest`): the value of `req` afterwards and the error returned. -/
def Unmarshal (data : String) : BulkRequest × Option UnmarshalError :=
  match parseJSON data with
  | none => ({}, some .SyntaxError)
  | some j =>
    let r := decode j {}
    ({ Queries := r.1.value }, r.2)

end BulkRequest

/-! ## `json.Marshal` of the response values of `main.go` -/

/-- The lower-case hexadecimal digit of a number below 16. -/
def hexDigit (n : Nat) : Char :=
  if n < 10 then Char.ofNat (48 + n) else Char.ofNat (87 + n)

/-- The escape `\u00XX` of a character below U+0100. -/
def escapeU00 (c : Char) : List Char :=
  [Char.ofNat 92, Char.ofNat 117, Char.ofNat 48, Char.ofNat 48,
    hexDigit (c.toNat / 16), hexDigit (c.toNat % 16)]

/-- One character of a Go string inside a JSON string literal, as
`json.Marshal` writes it (HTML escaping is on by default): quote and backslash
are escaped, control characters are written with their short escape or as
`\u00XX`, and so are `<`, `>`, `&`, U+2028 and U+2029.  The short escapes of
U+0008 and U+000C are those of Go 1.22 and later. -/
def encodeChar (c : Char) : List Char :=
  let n := c.toNat
  if n = 34 ∨ n = 92 then [Char.ofNat 92, c]
  else if n = 8 then [Char.ofNat 92, Char.ofNat 98]
  else if n = 12 then [Char.ofNat 92, Char.ofNat 102]
  else if n = 10 then [Char.ofNat 92, Char.ofNat 110]
  else if n = 13 then [Char.ofNat 92, Char.ofNat 114]
  else if n = 9 then [Char.ofNat 92, Char.ofNat 116]
  else if n < 32 ∨ n = 60 ∨ n = 62 ∨ n = 38 then escapeU00 c
  else if n = 0x2028 ∨ n = 0x2029 then
    [Char.ofNat 92, Char.ofNat 117, Char.ofNat 50, Char.ofNat 48, Char.ofNat 50, hexDigit (n % 16)]
  else [c]

/-- Go's `json.Marshal` of a `string`. -/
def encodeString (s : String) : String :=
  String.mk (Char.ofNat 34 :: (s.data.flatMap encodeChar ++ [Char.ofNat 34]))

/-- The JSON array of the given elements, in order, given their encoding. -/
def encodeArray {α : Type} (enc : α → String) (xs : List α) : String :=
  "[" ++ ",".intercalate (xs.map enc) ++ "]"

/-- Go's `json.Marshal` of a slice, given the encoding of its elements: the nil
slice is written `null`, any other slice as a JSON array. -/
def encodeSlice {α : Type} (enc : α → String) : GoSlice α → String
  | .nil => "null"
  | .mk xs => encodeArray enc xs

/-- Modelled from the spec: the element type `parser.ParsedComponent` of the
gopostal library, which the spec gives as `label: string, value: string`,
written to JSON as an object with the keys `label` and `value`. -/
structure ParsedComponent where
  Label : String := ""
  Value : String := ""
deriving DecidableEq, Repr

/-- Go's `json.Marshal` of a `parser.ParsedComponent`. -/
def ParsedComponent.Marshal (c : ParsedComponent) : String :=
  "\x7b\"label\":" ++ encodeString c.Label ++ ",\"value\":" ++ encodeString c.Value ++ "\x7d"

/-- `type BulkParseItem struct`. -/
structure BulkParseItem where
  QueryId : String := ""
  Parsed : GoSlice ParsedComponent := .nil
deriving DecidableEq, Repr

/-- `type BulkParseResponse struct`. -/
structure BulkParseResponse where
  Items : GoSlice BulkParseItem := .nil
deriving DecidableEq, Repr

/-- `type BulkExpandItem struct`. -/
structure BulkExpandItem where
  QueryId : String := ""
  Expansions : GoSlice String := .nil
deriving DecidableEq, Repr

/-- `type BulkExpandResponse struct`. -/
structure BulkExpandResponse where
  Items : GoSlice BulkExpandItem := .nil
deriving DecidableEq, Repr

/-- Go's `json.Marshal` of a `[]string`. -/
def MarshalStrings (xs : GoSlice String) : String := encodeSlice encodeString xs

/-- Go's `json.Marshal` of a `[]parser.ParsedComponent`. -/
def MarshalParsed (xs : GoSlice ParsedComponent) : String := encodeSlice ParsedComponent.Marshal xs

/-- Go's `json.Marshal` of a `BulkParseItem`. -/
def BulkParseItem.Marshal (it : BulkParseItem) : String :=
  "\x7b\"query_id\":" ++ encodeString it.QueryId ++ ",\"parsed\":" ++ MarshalParsed it.Parsed ++ "\x7d"

/-- Go's `json.Marshal` of a `BulkParseResponse`. -/
def BulkParseResponse.Marshal (p : BulkParseResponse) : String :=
  "\x7b\"items\":" ++ encodeSlice BulkParseItem.Marshal p.Items ++ "\x7d"

/-- Go's `json.Marshal` of a `BulkExpandItem`. -/
def BulkExpandItem.Marshal (it : BulkExpandItem) : String :=
  "\x7b\"query_id\":" ++ encodeString it.QueryId ++ ",\"expansions\":"
    ++ MarshalStrings it.Expansions ++ "\x7d"

/-- Go's `json.Marshal` of a `BulkExpandResponse`. -/
def BulkExpandResponse.Marshal (p : BulkExpandResponse) : String :=
  "\x7b\"items\":" ++ encodeSlice BulkExpandItem.Marshal p.Items ++ "\x7d"

/-! ## The HTTP side: requests, the response writer, the gopostal library -/

/-- An incoming `*http.Request`.  `Body` is what `ioutil.ReadAll(r.Body)`
returns; the handlers discard its error. -/
structure HttpRequest where
  Method : String := ""
  URL : String := ""
  Header : List (String × String) := []
  Body : String := ""
deriving DecidableEq, Repr

/-- Go's `http.StatusOK`. -/
def StatusOK : Nat := 200

/-- The state of an `http.ResponseWriter`: the header map a handler may still
change, and what has gone out: the status line with the headers as they were
when it was written, and the body. -/
structure ResponseWriter where
  header : List (String × String) := []
  wroteHeader : Bool := false
  status : Nat := 0
  sentHeader : List (String × String) := []
  body : String := ""
deriving DecidableEq, Repr

namespace ResponseWriter

/-- Go's `w.Header().Set(key, value)`. -/
def SetHeader (w : ResponseWriter) (key value : String) : ResponseWriter :=
  { w with header := (key, value) :: w.header.filter (fun kv => kv.1 ≠ key) }

/-- Go's `w.WriteHeader(code)`: only the first call counts. -/
def WriteHeader (w : ResponseWriter) (code : Nat) : ResponseWriter :=
  if w.wroteHeader then w
  else { w with wroteHeader := true, status := code, sentHeader := w.header }

/-- Go's `w.Write(data)`: writes the header with status 200 first if no header
has been written yet. -/
def Write (w : ResponseWriter) (data : String) : ResponseWriter :=
  let w := if w.wroteHeader then w else w.WriteHeader StatusOK
  { w with body := w.body ++ data }

end ResponseWriter

/-- The response a client receives. -/
structure Response where
  status : Nat
  header : List (String × String)
  body : String
deriving DecidableEq, Repr

/-- The gopostal library: `expand.ExpandAddress` and `parser.ParseAddress`. -/
structure Postal where
  ExpandAddress : String → GoSlice String
  ParseAddress : String → GoSlice ParsedComponent

/-- A call into the gopostal library, with its argument. -/
inductive Call where
  | ExpandAddress (address : String)
  | ParseAddress (address : String)
deriving DecidableEq, Repr

/-- What a handler leaves behind when it returns: the response writer, and the
calls it made into the library, in order. -/
structure Outcome where
  w : ResponseWriter
  calls : List Call := []
deriving DecidableEq, Repr

/-- The server finishes a request after the handler returned: a handler that
wrote nothing gets status 200. -/
def Outcome.response (o : Outcome) : Response :=
  let w := if o.w.wroteHeader then o.w else o.w.WriteHeader StatusOK
  { status := w.status, header := w.sentHeader, body := w.body }

/-! ## The handlers of `main.go` -/

/-- `func HealthHandler`. -/
def HealthHandler (w : ResponseWriter) (_r : HttpRequest) : Outcome :=
  let w := w.WriteHeader StatusOK
  let w := w.Write "OK"
  { w := w }

/-- `func ExpandHandler`. -/
def ExpandHandler (lib : Postal) (w : ResponseWriter) (r : HttpRequest) : Outcome :=
  let w := w.SetHeader "Content-Type" "application/json"
  let req : Request := {}
  let q := r.Body
  let req := (Request.Unmarshal q req).1
  let expansions := lib.ExpandAddress req.Query
  let expansionThing := MarshalStrings expansions
  { w := w.Write expansionThing, calls := [.ExpandAddress req.Query] }

/-- The body of the loop of `BulkExpandHandler`, for one `idx`. -/
def BulkExpandHandler.step (lib : Postal) (req : BulkRequest)
    (st : BulkExpandResponse × List Call) (idx : Nat) : BulkExpandResponse × List Call :=
  let entry := req.Queries.toList.getD idx {}
  let expandPayload : BulkExpandItem := {}
  let expandPayload := { expandPayload with QueryId := entry.QueryId }
  let expandPayload := { expandPayload with Expansions := lib.ExpandAddress entry.Query }
  ({ Items := st.1.Items.append expandPayload }, st.2 ++ [.ExpandAddress entry.Query])

/-- The loop `for idx := range req.Queries` of `BulkExpandHandler`, started
with the zero `payload`. -/
def BulkExpandHandler.loop (lib : Postal) (req : BulkRequest) : BulkExpandResponse × List Call :=
  (List.range req.Queries.len).foldl (BulkExpandHandler.step lib req) ({}, [])

/-- `func BulkExpandHandler`. -/
def BulkExpandHandler (lib : Postal) (w : ResponseWriter) (r : HttpRequest) : Outcome :=
  let w := w.SetHeader "Content-Type" "application/json"
  let q := r.Body
  let req := (BulkRequest.Unmarshal q).1
  let st := BulkExpandHandler.loop lib req
  let expansionThing := st.1.Marshal
  { w := w.Write expansionThing, calls := st.2 }

/-- `func ParserHandler`. -/
def ParserHandler (lib : Postal) (w : ResponseWriter) (r : HttpRequest) : Outcome :=
  let w := w.SetHeader "Content-Type" "application/json"
  let req : Request := {}
  let q := r.Body
  let req := (Request.Unmarshal q req).1
  let parsed := lib.ParseAddress req.Query
  let parseThing := MarshalParsed parsed
  { w := w.Write parseThing, calls := [.ParseAddress req.Query] }

/-- The body of the loop of `BulkParserHandler`, for one `idx`. -/
def BulkParserHandler.step (lib : Postal) (req : BulkRequest)
    (st : BulkParseResponse × List Call) (idx : Nat) : BulkParseResponse × List Call :=
  let entry := req.Queries.toList.getD idx {}
  let addressPayload : BulkParseItem := {}
  let addressPayload := { addressPayload with QueryId := entry.QueryId }
  let addressPayload := { addressPayload with Parsed := lib.ParseAddress entry.Query }
  ({ Items := st.1.Items.append addressPayload }, st.2 ++ [.ParseAddress entry.Query])

/-- The loop `for idx := range req.Queries` of `BulkParserHandler`, started
with the zero `payload`. -/
def BulkParserHandler.loop (lib : Postal) (req : BulkRequest) : BulkParseResponse × List Call :=
  (List.range req.Queries.len).foldl (BulkParserHandler.step lib req) ({}, [])

/-- `func BulkParserHandler`. -/
def BulkParserHandler (lib : Postal) (w : ResponseWriter) (r : HttpRequest) : Outcome :=
  let w := w.SetHeader "Content-Type" "application/json"
  let q := r.Body
  let req := (BulkRequest.Unmarshal q).1
  let st := BulkParserHandler.loop lib req
  let parseThing := st.1.Marshal
  { w := w.Write parseThing, calls := st.2 }

/-! ## Start-up: `func main` up to the choice of transport -/

/-- The process environment: the variables that are set, with their values. -/
abbrev Environ := String → Option String

/-- Go's `os.Getenv`: the empty string for a variable that is not set. -/
def Getenv (env : Environ) (key : String) : String := (env key).getD ""

/-- How the server goroutine serves. -/
inductive Transport where
  | ListenAndServe
  | ListenAndServeTLS (certFile keyFile : String)
deriving DecidableEq, Repr

/-- The handlers `main` registers. -/
inductive Handler where
  | Health | Expand | Parser | BulkExpand | BulkParser
deriving DecidableEq, Repr

/-- What `main` sets up before it waits for the interrupt: the server address,
the routes, the transport the goroutine chooses and the line it prints. -/
structure Server where
  Addr : String
  routes : List (String × String × Handler)
  transport : Transport
  printed : String
deriving DecidableEq, Repr

/-- `func main`, from the reading of the environment to the start of the server. -/
def main (env : Environ) : Server :=
  let host := Getenv env "LISTEN_HOST"
  let host := if host = "" then "0.0.0.0" else host
  let port := Getenv env "LISTEN_PORT"
  let port := if port = "" then "8080" else port
  let listenSpec := host ++ ":" ++ port
  let certFile := Getenv env "SSL_CERT_FILE"
  let keyFile := Getenv env "SSL_KEY_FILE"
  let routes := [("/health", "GET", Handler.Health), ("/expand", "POST", Handler.Expand),
    ("/parser", "POST", Handler.Parser), ("/bulk/expand", "POST", Handler.BulkExpand),
    ("/bulk/parser", "POST", Handler.BulkParser)]
  if certFile ≠ "" ∧ keyFile ≠ "" then
    { Addr := listenSpec, routes := routes, transport := .ListenAndServeTLS certFile keyFile,
      printed := "listening on https://" ++ listenSpec ++ "\n" }
  else
    { Addr := listenSpec, routes := routes, transport := .ListenAndServe,
      printed := "listening on http://" ++ listenSpec ++ "\n" }

/-- The handler a route names, run on a fresh response writer. -/
def Handler.serve (lib : Postal) (h : Handler) (r : HttpRequest) : Outcome :=
  match h with
  | .Health => HealthHandler {} r
  | .Expand => ExpandHandler lib {} r
  | .Parser => ParserHandler lib {} r
  | .BulkExpand => BulkExpandHandler lib {} r
  | .BulkParser => BulkParserHandler lib {} r

/-! ## Specification-side definitions -/

/-- The item the batch expand endpoint is expected to produce for one entry. -/
def BulkExpandItem.of (lib : Postal) (e : BulkQuery) : BulkExpandItem :=
  { QueryId := e.QueryId, Expansions := lib.ExpandAddress e.Query }

/-- The item the batch parser endpoint is expected to produce for one entry. -/
def BulkParseItem.of (lib : Postal) (e : BulkQuery) : BulkParseItem :=
  { QueryId := e.QueryId, Parsed := lib.ParseAddress e.Query }

/-- A library for concrete runs: one expansion, the address itself, and one
component labelled `road`. -/
def Postal.echo : Postal :=
  { ExpandAddress := fun s => .mk [s],
    ParseAddress := fun s => .mk [{ Label := "road", Value := s }] }

/-- A library for concrete runs that returns the nil slice for every address. -/
def Postal.silent : Postal :=
  { ExpandAddress := fun _ => .nil, ParseAddress := fun _ => .nil }

/-! ## Lemmas on the batch loops -/

theorem range_map_getD {α : Type} (l : List α) (d : α) :
    (List.range l.length).map (fun i => l.getD i d) = l := by
  apply List.ext_getElem
  · simp
  · intro n h1 h2
    simp at h1 h2
    simp [List.getD_eq_getElem, h2]

theorem expand_fold (lib : Postal) (l : List BulkQuery) (st : BulkExpandResponse × List Call) :
    l.foldl (fun st e => (({ Items := st.1.Items.append (BulkExpandItem.of lib e) } : BulkExpandResponse),
        st.2 ++ [Call.ExpandAddress e.Query])) st
      = if l = [] then st
        else ({ Items := .mk (st.1.Items.toList ++ l.map (BulkExpandItem.of lib)) },
          st.2 ++ l.map (fun e => Call.ExpandAddress e.Query)) := by
  induction l generalizing st with
  | nil => simp
  | cons e es ih =>
    rw [List.foldl_cons, ih]
    by_cases h : es = []
    · subst h; simp [GoSlice.append]
    · simp [h, GoSlice.append, GoSlice.toList]

theorem expand_loop (lib : Postal) (req : BulkRequest) :
    BulkExpandHandler.loop lib req
      = if req.Queries.toList = [] then ({}, [])
        else ({ Items := .mk (req.Queries.toList.map (BulkExpandItem.of lib)) },
          req.Queries.toList.map (fun e => Call.ExpandAddress e.Query)) := by
  have h := expand_fold lib req.Queries.toList ({}, [])
  have hr := range_map_getD req.Queries.toList ({} : BulkQuery)
  unfold BulkExpandHandler.loop GoSlice.len
  have : (List.range req.Queries.toList.length).foldl (BulkExpandHandler.step lib req) ({}, [])
      = ((List.range req.Queries.toList.length).map (fun i => req.Queries.toList.getD i {})).foldl
        (fun st e => (({ Items := st.1.Items.append (BulkExpandItem.of lib e) } : BulkExpandResponse),
        st.2 ++ [Call.ExpandAddress e.Query])) ({}, []) := by
    rw [List.foldl_map]; rfl
  rw [this, hr, h]
  simp [GoSlice.toList]

theorem parse_fold (lib : Postal) (l : List BulkQuery) (st : BulkParseResponse × List Call) :
    l.foldl (fun st e => (({ Items := st.1.Items.append (BulkParseItem.of lib e) } : BulkParseResponse),
        st.2 ++ [Call.ParseAddress e.Query])) st
      = if l = [] then st
        else ({ Items := .mk (st.1.Items.toList ++ l.map (BulkParseItem.of lib)) },
          st.2 ++ l.map (fun e => Call.ParseAddress e.Query)) := by
  induction l generalizing st with
  | nil => simp
  | cons e es ih =>
    rw [List.foldl_cons, ih]
    by_cases h : es = []
    · subst h; simp [GoSlice.append]
    · simp [h, GoSlice.append, GoSlice.toList]

theorem parse_loop (lib : Postal) (req : BulkRequest) :
    BulkParserHandler.loop lib req
      = if req.Queries.toList = [] then ({}, [])
        else ({ Items := .mk (req.Queries.toList.map (BulkParseItem.of lib)) },
          req.Queries.toList.map (fun e => Call.ParseAddress e.Query)) := by
  have h := parse_fold lib req.Queries.toList ({}, [])
  have hr := range_map_getD req.Queries.toList ({} : BulkQuery)
  unfold BulkParserHandler.loop GoSlice.len
  have : (List.range req.Queries.toList.length).foldl (BulkParserHandler.step lib req) ({}, [])
      = ((List.range req.Queries.toList.length).map (fun i => req.Queries.toList.getD i {})).foldl
        (fun st e => (({ Items := st.1.Items.append (BulkParseItem.of lib e) } : BulkParseResponse),
        st.2 ++ [Call.ParseAddress e.Query])) ({}, []) := by
    rw [List.foldl_map]; rfl
  rw [this, hr, h]
  simp [GoSlice.toList]

/-- The items of the expand payload are the expected items of the entries, in order. -/
theorem expand_loop_items (lib : Postal) (req : BulkRequest) :
    (BulkExpandHandler.loop lib req).1.Items.toList
      = req.Queries.toList.map (BulkExpandItem.of lib) := by
  rw [expand_loop]
  by_cases h : req.Queries.toList = []
  · rw [if_pos h, h]; rfl
  · rw [if_neg h]; rfl

/-- The items of the parser payload are the expected items of the entries, in order. -/
theorem parse_loop_items (lib : Postal) (req : BulkRequest) :
    (BulkParserHandler.loop lib req).1.Items.toList
      = req.Queries.toList.map (BulkParseItem.of lib) := by
  rw [parse_loop]
  by_cases h : req.Queries.toList = []
  · rw [if_pos h, h]; rfl
  · rw [if_neg h]; rfl

/-- The body a bulk expand request is answered with is the payload of the loop. -/
theorem bulk_expand_body (lib : Postal) (r : HttpRequest) :
    (BulkExpandHandler lib {} r).response.body
      = (BulkExpandHandler.loop lib (BulkRequest.Unmarshal r.Body).1).1.Marshal := by
  simp [BulkExpandHandler, Outcome.response, ResponseWriter.Write, ResponseWriter.WriteHeader,
    ResponseWriter.SetHeader]

/-- The body a bulk parser request is answered with is the payload of the loop. -/
theorem bulk_parser_body (lib : Postal) (r : HttpRequest) :
    (BulkParserHandler lib {} r).response.body
      = (BulkParserHandler.loop lib (BulkRequest.Unmarshal r.Body).1).1.Marshal := by
  simp [BulkParserHandler, Outcome.response, ResponseWriter.Write, ResponseWriter.WriteHeader,
    ResponseWriter.SetHeader]

/-- Data that is not valid JSON leaves the declared `Request` untouched: the
only way `json.Unmarshal` reports a syntax error is the scanner rejecting the
data, before anything is stored. -/
theorem syntax_error_leaves_query_empty (data : String)
    (h : (Request.Unmarshal data {}).2 = some .SyntaxError) :
    (Request.Unmarshal data {}).1.Query = "" := by
  unfold Request.Unmarshal at h ⊢
  cases hp : parseJSON data with
  | none => rfl
  | some v =>
    rw [hp] at h
    exfalso
    cases v with
    | object ms =>
      simp only [Request.decode] at h
      have key : ∀ (l : List (List Char × JSON)) (st : Request × Option UnmarshalError),
          st.2 ≠ some .SyntaxError →
          (l.foldl Request.decodeMember st).2 ≠ some .SyntaxError := by
        intro l
        induction l with
        | nil => intro st hst; simpa using hst
        | cons m ms ih =>
          intro st hst
          rw [List.foldl_cons]
          apply ih
          unfold Request.decodeMember
          cases findField ["query"] m.1 with
          | none => simpa using hst
          | some i =>
            simp only
            unfold storeString
            cases m.2 <;> simp only <;> first
              | exact hst
              | (unfold saveError; cases hs : st.2 <;> simp_all)
      exact key ms ({}, none) (by simp) h
    | null => simp [Request.decode] at h
    | bool b => simp [Request.decode] at h
    | number n => simp [Request.decode] at h
    | string s => simp [Request.decode] at h
    | array a => simp [Request.decode] at h

/-! ## The claims -/

/-- C1: for every batch request `req` (any number of entries, any query text,
query ids that may repeat) the payloads the loops of `BulkParserHandler` and
`BulkExpandHandler` build have exactly as many items as `req` has queries;
item `i` carries the query id of entry `i` and the result of the normalization
function on the query of entry `i`; the items are those of the entries in
order, so none is dropped, duplicated or reordered; and the body each handler
answers with is the serialization of that payload for the decoded request. -/
theorem bulk_items_mirror_queries (lib : Postal) (req : BulkRequest) (r : HttpRequest) :
    (BulkParserHandler.loop lib req).1.Items.len = req.Queries.len
    ∧ (BulkExpandHandler.loop lib req).1.Items.len = req.Queries.len
    ∧ (BulkParserHandler.loop lib req).1.Items.toList
        = req.Queries.toList.map (fun e => { QueryId := e.QueryId, Parsed := lib.ParseAddress e.Query })
    ∧ (BulkExpandHandler.loop lib req).1.Items.toList
        = req.Queries.toList.map
            (fun e => { QueryId := e.QueryId, Expansions := lib.ExpandAddress e.Query })
    ∧ (∀ i, i < req.Queries.len → ∃ e, req.Queries.index i = some e
        ∧ (BulkParserHandler.loop lib req).1.Items.index i
            = some { QueryId := e.QueryId, Parsed := lib.ParseAddress e.Query }
        ∧ (BulkExpandHandler.loop lib req).1.Items.index i
            = some { QueryId := e.QueryId, Expansions := lib.ExpandAddress e.Query })
    ∧ (BulkParserHandler lib {} r).response.body
        = (BulkParserHandler.loop lib (BulkRequest.Unmarshal r.Body).1).1.Marshal
    ∧ (BulkExpandHandler lib {} r).response.body
        = (BulkExpandHandler.loop lib (BulkRequest.Unmarshal r.Body).1).1.Marshal := by
  have hp := parse_loop_items lib req
  have he := expand_loop_items lib req
  refine ⟨?_, ?_, hp, he, ?_, bulk_parser_body lib r, bulk_expand_body lib r⟩
  · simp [GoSlice.len, hp]
  · simp [GoSlice.len, he]
  · intro i hi
    have hi2 : i < req.Queries.toList.length := hi
    refine ⟨req.Queries.toList[i], ?_, ?_, ?_⟩
    · simp [GoSlice.index, List.getElem?_eq_getElem hi2]
    · simp [GoSlice.index, hp, List.getElem?_eq_getElem hi2, BulkParseItem.of]
    · simp [GoSlice.index, he, List.getElem?_eq_getElem hi2, BulkExpandItem.of]

set_option maxRecDepth 100000 in
/-- Witness of C1: the batch of the spec's example, with a repeated query id,
run through both handlers with the echo library. -/
theorem bulk_items_mirror_queries_witness :
    (1 < (BulkRequest.mk (.mk [⟨"a", "1 Infinite Loop"⟩, ⟨"a", ""⟩])).Queries.len)
    ∧ (BulkParserHandler.loop Postal.echo ⟨.mk [⟨"a", "1 Infinite Loop"⟩, ⟨"a", ""⟩]⟩).1.Items.index 1
        = some { QueryId := "a", Parsed := .mk [{ Label := "road", Value := "" }] }
    ∧ (BulkParserHandler Postal.echo {}
        { Body := "\x7b\"queries\":[\x7b\"query_id\":\"a\",\"query\":\"1 Infinite Loop\"\x7d,\x7b\"query_id\":\"b\",\"query\":\"\"\x7d]\x7d" }).response.body
        = "\x7b\"items\":[\x7b\"query_id\":\"a\",\"parsed\":[\x7b\"label\":\"road\",\"value\":\"1 Infinite Loop\"\x7d]\x7d,\x7b\"query_id\":\"b\",\"parsed\":[\x7b\"label\":\"road\",\"value\":\"\"\x7d]\x7d]\x7d" := by
  have h := bulk_items_mirror_queries Postal.echo ⟨.mk [⟨"a", "1 Infinite Loop"⟩, ⟨"a", ""⟩]⟩
    { Body := "\x7b\"queries\":[\x7b\"query_id\":\"a\",\"query\":\"1 Infinite Loop\"\x7d,\x7b\"query_id\":\"b\",\"query\":\"\"\x7d]\x7d" }
  obtain ⟨_, _, _, _, hidx, hbody, _⟩ := h
  refine ⟨by decide, ?_, ?_⟩
  · obtain ⟨e, he, hpi, _⟩ := hidx 1 (by decide)
    have : e = ⟨"a", ""⟩ := by
      have h2 : (BulkRequest.mk (.mk [⟨"a", "1 Infinite Loop"⟩, ⟨"a", ""⟩])).Queries.index 1
          = some ⟨"a", ""⟩ := by decide
      rw [h2] at he
      exact (Option.some.inj he).symm
    rw [hpi, this]
    rfl
  · rw [hbody]
    decide

/-- C2, as stated, fails: for the body with the empty `queries` array the
decoded request has an empty, non-nil `Queries`, both payloads keep the nil
`Items` they were declared with, and both bodies are `{"items":null}`: the
field is present, but its value is `null`, not the array `[]`. -/
theorem empty_batch_items_not_array :
    (BulkRequest.Unmarshal "\x7b\"queries\":[]\x7d").1.Queries = .mk []
    ∧ (BulkParserHandler.loop Postal.echo (BulkRequest.Unmarshal "\x7b\"queries\":[]\x7d").1).1.Items
        = .nil
    ∧ (BulkParserHandler Postal.echo {} { Body := "\x7b\"queries\":[]\x7d" }).response.body
        = "\x7b\"items\":null\x7d"
    ∧ (BulkExpandHandler Postal.echo {} { Body := "\x7b\"queries\":[]\x7d" }).response.body
        = "\x7b\"items\":null\x7d"
    ∧ (BulkParserHandler Postal.echo {} { Body := "\x7b\"queries\":[]\x7d" }).response.body
        ≠ "\x7b\"items\":[]\x7d"
    ∧ (BulkExpandHandler Postal.echo {} { Body := "\x7b\"queries\":[]\x7d" }).response.body
        ≠ "\x7b\"items\":[]\x7d" := by
  decide

/-- C2, amended: for every batch request whose decoded `queries` has no
entries, `BulkParserHandler` and `BulkExpandHandler` each build a payload whose
`Items` is the nil slice and answer with the body `{"items":null}`: the
`items` field is present and its value is `null`. -/
theorem empty_batch_items_null (lib : Postal) (r : HttpRequest)
    (h : (BulkRequest.Unmarshal r.Body).1.Queries.len = 0) :
    (BulkParserHandler.loop lib (BulkRequest.Unmarshal r.Body).1).1.Items = .nil
    ∧ (BulkExpandHandler.loop lib (BulkRequest.Unmarshal r.Body).1).1.Items = .nil
    ∧ (BulkParserHandler lib {} r).response.body = "\x7b\"items\":null\x7d"
    ∧ (BulkExpandHandler lib {} r).response.body = "\x7b\"items\":null\x7d" := by
  have h0 : (BulkRequest.Unmarshal r.Body).1.Queries.toList = [] :=
    List.length_eq_zero.mp h
  have hp : BulkParserHandler.loop lib (BulkRequest.Unmarshal r.Body).1 = ({}, []) := by
    rw [parse_loop, if_pos h0]
  have he : BulkExpandHandler.loop lib (BulkRequest.Unmarshal r.Body).1 = ({}, []) := by
    rw [expand_loop, if_pos h0]
  refine ⟨by rw [hp], by rw [he], ?_, ?_⟩
  · rw [bulk_parser_body, hp]; rfl
  · rw [bulk_expand_body, he]; rfl

/-- Witness of the amended C2: the request with `queries: []`. -/
theorem empty_batch_items_null_witness :
    (BulkRequest.Unmarshal (HttpRequest.mk "POST" "/bulk/parser" [] "\x7b\"queries\":[]\x7d").Body).1.Queries.len = 0
    ∧ (BulkParserHandler Postal.echo {}
        (HttpRequest.mk "POST" "/bulk/parser" [] "\x7b\"queries\":[]\x7d")).response.body
        = "\x7b\"items\":null\x7d" :=
  ⟨by decide,
    (empty_batch_items_null Postal.echo
      (HttpRequest.mk "POST" "/bulk/parser" [] "\x7b\"queries\":[]\x7d") (by decide)).2.2.1⟩

/-- C3, as stated, fails: with a library that returns the nil slice, the body
of a well-formed single request is `null` for both handlers, which is not the
JSON array of the (zero) elements returned. -/
theorem single_body_not_array :
    (Request.Unmarshal "\x7b\"query\":\"123 Main St\"\x7d" {}).1.Query = "123 Main St"
    ∧ (Postal.silent.ExpandAddress "123 Main St").toList = []
    ∧ (ExpandHandler Postal.silent {} { Body := "\x7b\"query\":\"123 Main St\"\x7d" }).response.body
        = "null"
    ∧ (ExpandHandler Postal.silent {} { Body := "\x7b\"query\":\"123 Main St\"\x7d" }).response.body
        ≠ encodeArray encodeString (Postal.silent.ExpandAddress "123 Main St").toList
    ∧ (ParserHandler Postal.silent {} { Body := "\x7b\"query\":\"123 Main St\"\x7d" }).response.body
        ≠ encodeArray ParsedComponent.Marshal (Postal.silent.ParseAddress "123 Main St").toList := by
  decide

/-- C3, amended: for every request body that decodes to a single-query request
with query string `q`, `ExpandHandler` answers with status 200, the header
`Content-Type: application/json` and the body `json.Marshal` gives for the
slice `expandAddress(q)` returns: the JSON array of its strings, in order, when
that slice is not nil, and `null` when it is nil; `ParserHandler` does the same
with the components `parseAddress(q)` returns; each handler calls its
normalization function exactly once, with `q` unmodified. -/
theorem single_handlers_serialize_result (lib : Postal) (r : HttpRequest) (q : String)
    (h : (Request.Unmarshal r.Body {}).1.Query = q) :
    ((ExpandHandler lib {} r).response.status = 200
      ∧ (ExpandHandler lib {} r).response.header.lookup "Content-Type" = some "application/json"
      ∧ (ExpandHandler lib {} r).response.body = MarshalStrings (lib.ExpandAddress q)
      ∧ (∀ xs, lib.ExpandAddress q = .mk xs →
          (ExpandHandler lib {} r).response.body = encodeArray encodeString xs)
      ∧ (lib.ExpandAddress q = .nil → (ExpandHandler lib {} r).response.body = "null")
      ∧ (ExpandHandler lib {} r).calls = [.ExpandAddress q])
    ∧ ((ParserHandler lib {} r).response.status = 200
      ∧ (ParserHandler lib {} r).response.header.lookup "Content-Type" = some "application/json"
      ∧ (ParserHandler lib {} r).response.body = MarshalParsed (lib.ParseAddress q)
      ∧ (∀ xs, lib.ParseAddress q = .mk xs →
          (ParserHandler lib {} r).response.body = encodeArray ParsedComponent.Marshal xs)
      ∧ (lib.ParseAddress q = .nil → (ParserHandler lib {} r).response.body = "null")
      ∧ (ParserHandler lib {} r).calls = [.ParseAddress q]) := by
  have hE : (ExpandHandler lib {} r).response.body = MarshalStrings (lib.ExpandAddress q) := by
    simp [ExpandHandler, Outcome.response, ResponseWriter.Write, ResponseWriter.WriteHeader,
      ResponseWriter.SetHeader, h]
  have hP : (ParserHandler lib {} r).response.body = MarshalParsed (lib.ParseAddress q) := by
    simp [ParserHandler, Outcome.response, ResponseWriter.Write, ResponseWriter.WriteHeader,
      ResponseWriter.SetHeader, h]
  refine ⟨⟨?_, ?_, hE, ?_, ?_, ?_⟩, ⟨?_, ?_, hP, ?_, ?_, ?_⟩⟩
  · simp [ExpandHandler, Outcome.response, ResponseWriter.Write, ResponseWriter.WriteHeader,
      ResponseWriter.SetHeader, StatusOK]
  · simp [ExpandHandler, Outcome.response, ResponseWriter.Write, ResponseWriter.WriteHeader,
      ResponseWriter.SetHeader, List.lookup]
  · intro xs hxs; rw [hE, hxs]; rfl
  · intro hnil; rw [hE, hnil]; rfl
  · simp [ExpandHandler, h]
  · simp [ParserHandler, Outcome.response, ResponseWriter.Write, ResponseWriter.WriteHeader,
      ResponseWriter.SetHeader, StatusOK]
  · simp [ParserHandler, Outcome.response, ResponseWriter.Write, ResponseWriter.WriteHeader,
      ResponseWriter.SetHeader, List.lookup]
  · intro xs hxs; rw [hP, hxs]; rfl
  · intro hnil; rw [hP, hnil]; rfl
  · simp [ParserHandler, h]

/-- Witness of the amended C3: the request of the spec's example. -/
theorem single_handlers_serialize_result_witness :
    (Request.Unmarshal (HttpRequest.mk "POST" "/parser" [] "\x7b\"query\":\"123 Main St\"\x7d").Body {}).1.Query
        = "123 Main St"
    ∧ (ParserHandler Postal.echo {}
        (HttpRequest.mk "POST" "/parser" [] "\x7b\"query\":\"123 Main St\"\x7d")).response.body
        = "[\x7b\"label\":\"road\",\"value\":\"123 Main St\"\x7d]" := by
  have h := single_handlers_serialize_result Postal.echo
    (HttpRequest.mk "POST" "/parser" [] "\x7b\"query\":\"123 Main St\"\x7d") "123 Main St" (by decide)
  refine ⟨by decide, ?_⟩
  rw [h.2.2.2.1]
  decide

/-- C4, as stated, fails: on the body `{"query":"abc","query":1}` decoding
reports an error (the second value is not a string), yet the query decoded
before the error is kept, so both handlers proceed with `abc` and the response
differs from the one for the empty query string. -/
theorem decode_error_keeps_query :
    (Request.Unmarshal "\x7b\"query\":\"abc\",\"query\":1\x7d" {}).2 = some .UnmarshalTypeError
    ∧ (Request.Unmarshal "\x7b\"query\":\"abc\",\"query\":1\x7d" {}).1.Query = "abc"
    ∧ (Request.Unmarshal "\x7b\"query\":\"\"\x7d" {}) = ({ Query := "" }, none)
    ∧ (ExpandHandler Postal.echo {} { Body := "\x7b\"query\":\"abc\",\"query\":1\x7d" }).response.body
        = "[\"abc\"]"
    ∧ (ExpandHandler Postal.echo {} { Body := "\x7b\"query\":\"\"\x7d" }).response.body = "[\"\"]"
    ∧ (ExpandHandler Postal.echo {} { Body := "\x7b\"query\":\"abc\",\"query\":1\x7d" }).response
        ≠ (ExpandHandler Postal.echo {} { Body := "\x7b\"query\":\"\"\x7d" }).response
    ∧ (ParserHandler Postal.echo {} { Body := "\x7b\"query\":\"abc\",\"query\":1\x7d" }).response
        ≠ (ParserHandler Postal.echo {} { Body := "\x7b\"query\":\"\"\x7d" }).response := by
  decide

/-- C4, amended: for every request body, and so for every one on which
decoding reports an error, `ExpandHandler` and `ParserHandler` do not fail and
do not surface the error: they answer with status 200 and call the
normalization function once, with the query string decoding left in the
request.  When the body is malformed JSON (the error is a syntax error) that
is the empty query string, and the response equals the response produced for
any request whose query is the empty string. -/
theorem malformed_body_is_empty_query (lib : Postal) (r r0 : HttpRequest)
    (h0 : (Request.Unmarshal r0.Body {}).1.Query = "") :
    (ExpandHandler lib {} r).response.status = 200
    ∧ (ParserHandler lib {} r).response.status = 200
    ∧ (ExpandHandler lib {} r).calls = [.ExpandAddress (Request.Unmarshal r.Body {}).1.Query]
    ∧ (ParserHandler lib {} r).calls = [.ParseAddress (Request.Unmarshal r.Body {}).1.Query]
    ∧ ((Request.Unmarshal r.Body {}).2 = some .SyntaxError →
        (Request.Unmarshal r.Body {}).1.Query = ""
        ∧ (ExpandHandler lib {} r).response = (ExpandHandler lib {} r0).response
        ∧ (ParserHandler lib {} r).response = (ParserHandler lib {} r0).response
        ∧ (ExpandHandler lib {} r).calls = [.ExpandAddress ""]
        ∧ (ParserHandler lib {} r).calls = [.ParseAddress ""]) := by
  refine ⟨?_, ?_, ?_, ?_, ?_⟩
  · simp [ExpandHandler, Outcome.response, ResponseWriter.Write, ResponseWriter.WriteHeader,
      ResponseWriter.SetHeader, StatusOK]
  · simp [ParserHandler, Outcome.response, ResponseWriter.Write, ResponseWriter.WriteHeader,
      ResponseWriter.SetHeader, StatusOK]
  · simp [ExpandHandler]
  · simp [ParserHandler]
  · intro h
    have hq := syntax_error_leaves_query_empty r.Body h
    refine ⟨hq, ?_, ?_, ?_, ?_⟩
    · simp [ExpandHandler, hq, h0]
    · simp [ParserHandler, hq, h0]
    · simp [ExpandHandler, hq]
    · simp [ParserHandler, hq]

/-- Witness of the amended C4: a body cut off in the middle, against the
request with the empty query. -/
theorem malformed_body_is_empty_query_witness :
    (Request.Unmarshal (HttpRequest.mk "POST" "/expand" [] "\x7b\"query\":\"12 Ma").Body {}).2
        = some .SyntaxError
    ∧ (Request.Unmarshal (HttpRequest.mk "POST" "/expand" [] "\x7b\"query\":\"\"\x7d").Body {}).1.Query = ""
    ∧ (ExpandHandler Postal.echo {} (HttpRequest.mk "POST" "/expand" [] "\x7b\"query\":\"12 Ma")).response
        = (ExpandHandler Postal.echo {}
            (HttpRequest.mk "POST" "/expand" [] "\x7b\"query\":\"\"\x7d")).response :=
  ⟨by decide, by decide,
    ((malformed_body_is_empty_query Postal.echo
      (HttpRequest.mk "POST" "/expand" [] "\x7b\"query\":\"12 Ma")
      (HttpRequest.mk "POST" "/expand" [] "\x7b\"query\":\"\"\x7d") (by decide)).2.2.2.2
        (by decide)).2.1⟩

/-- C5: for every request, whatever its body, each of the five handlers
`HealthHandler`, `ExpandHandler`, `ParserHandler`, `BulkExpandHandler` and
`BulkParserHandler` ends with response status 200. -/
theorem every_handler_status_ok (lib : Postal) (r : HttpRequest) :
    (HealthHandler {} r).response.status = 200
    ∧ (ExpandHandler lib {} r).response.status = 200
    ∧ (ParserHandler lib {} r).response.status = 200
    ∧ (BulkExpandHandler lib {} r).response.status = 200
    ∧ (BulkParserHandler lib {} r).response.status = 200
    ∧ ∀ h : Handler, (Handler.serve lib h r).response.status = 200 := by
  have h1 : (HealthHandler {} r).response.status = 200 := by
    simp [HealthHandler, Outcome.response, ResponseWriter.Write, ResponseWriter.WriteHeader,
      StatusOK]
  have h2 : (ExpandHandler lib {} r).response.status = 200 := by
    simp [ExpandHandler, Outcome.response, ResponseWriter.Write, ResponseWriter.WriteHeader,
      ResponseWriter.SetHeader, StatusOK]
  have h3 : (ParserHandler lib {} r).response.status = 200 := by
    simp [ParserHandler, Outcome.response, ResponseWriter.Write, ResponseWriter.WriteHeader,
      ResponseWriter.SetHeader, StatusOK]
  have h4 : (BulkExpandHandler lib {} r).response.status = 200 := by
    simp [BulkExpandHandler, Outcome.response, ResponseWriter.Write, ResponseWriter.WriteHeader,
      ResponseWriter.SetHeader, StatusOK]
  have h5 : (BulkParserHandler lib {} r).response.status = 200 := by
    simp [BulkParserHandler, Outcome.response, ResponseWriter.Write, ResponseWriter.WriteHeader,
      ResponseWriter.SetHeader, StatusOK]
  refine ⟨h1, h2, h3, h4, h5, ?_⟩
  intro h
  cases h <;> simp only [Handler.serve] <;> assumption

/-- C6: for every request, `HealthHandler` answers with status 200 and the
body `OK`, exactly the two characters `O` and `K`, whatever the request holds,
and it calls neither normalization function. -/
theorem health_ok (r : HttpRequest) :
    (HealthHandler {} r).response.status = 200
    ∧ (HealthHandler {} r).response.body = "OK"
    ∧ (HealthHandler {} r).response.body.data = [Char.ofNat 79, Char.ofNat 75]
    ∧ (HealthHandler {} r).calls = []
    ∧ (HealthHandler {} r) = (HealthHandler {} {}) := by
  refine ⟨?_, ?_, ?_, ?_, ?_⟩ <;>
    simp [HealthHandler, Outcome.response, ResponseWriter.Write, ResponseWriter.WriteHeader,
      StatusOK]

/-- C7: for every environment, `main` serves over TLS if and only if both
`SSL_CERT_FILE` and `SSL_KEY_FILE` have a non-empty value, and then with these
two files; if either is empty or not set it serves plaintext HTTP. -/
theorem tls_iff_cert_and_key (env : Environ) :
    ((∃ c k, (main env).transport = .ListenAndServeTLS c k)
      ↔ (Getenv env "SSL_CERT_FILE" ≠ "" ∧ Getenv env "SSL_KEY_FILE" ≠ ""))
    ∧ (main env).transport
        = (if Getenv env "SSL_CERT_FILE" ≠ "" ∧ Getenv env "SSL_KEY_FILE" ≠ "" then
            .ListenAndServeTLS (Getenv env "SSL_CERT_FILE") (Getenv env "SSL_KEY_FILE")
          else .ListenAndServe)
    ∧ ((Getenv env "SSL_CERT_FILE" = "" ∨ Getenv env "SSL_KEY_FILE" = "")
        ↔ (main env).transport = .ListenAndServe) := by
  by_cases h : Getenv env "SSL_CERT_FILE" ≠ "" ∧ Getenv env "SSL_KEY_FILE" ≠ ""
  · have ht : (main env).transport
        = .ListenAndServeTLS (Getenv env "SSL_CERT_FILE") (Getenv env "SSL_KEY_FILE") := by
      simp only [main]; rw [if_pos h]
    refine ⟨⟨fun _ => h, fun _ => ⟨_, _, ht⟩⟩, ?_, ?_⟩
    · rw [if_pos h]; exact ht
    · rw [ht]
      constructor
      · intro h2; rcases h2 with h2 | h2
        · exact absurd h2 h.1
        · exact absurd h2 h.2
      · intro h2; cases h2
  · have ht : (main env).transport = .ListenAndServe := by
      simp only [main]; rw [if_neg h]
    refine ⟨⟨?_, fun h2 => absurd h2 h⟩, ?_, ?_⟩
    · rintro ⟨c, k, hck⟩; rw [ht] at hck; cases hck
    · rw [if_neg h]; exact ht
    · constructor
      · intro _; exact ht
      · intro _
        by_contra hc
        push_neg at hc
        exact h hc

/-- C8: for every environment, the address `main` binds is `host:port` where
`host` is `LISTEN_HOST` if that is non-empty and `0.0.0.0` otherwise, and `port`
is `LISTEN_PORT` if that is non-empty and `8080` otherwise; with neither set
the address is `0.0.0.0:8080`. -/
theorem listen_address (env : Environ) :
    (main env).Addr
        = (if Getenv env "LISTEN_HOST" = "" then "0.0.0.0" else Getenv env "LISTEN_HOST")
          ++ ":" ++ (if Getenv env "LISTEN_PORT" = "" then "8080" else Getenv env "LISTEN_PORT")
    ∧ (env "LISTEN_HOST" = none → env "LISTEN_PORT" = none → (main env).Addr = "0.0.0.0:8080") := by
  have ha : (main env).Addr
        = (if Getenv env "LISTEN_HOST" = "" then "0.0.0.0" else Getenv env "LISTEN_HOST")
          ++ ":" ++ (if Getenv env "LISTEN_PORT" = "" then "8080" else Getenv env "LISTEN_PORT") := by
    simp only [main]
    split <;> rfl
  refine ⟨ha, ?_⟩
  intro h1 h2
  rw [ha]
  simp [Getenv, h1, h2]

/-- Witness of C8: an environment with only a port set, and the empty environment. -/
theorem listen_address_witness :
    (main (fun k => if k = "LISTEN_PORT" then some "9090" else none)).Addr = "0.0.0.0:9090"
    ∧ (main (fun _ => none)).Addr = "0.0.0.0:8080" :=
  ⟨by decide, (listen_address (fun _ => none)).2 rfl rfl⟩

/-- C9: the normalization functions being functions of their input string,
any two requests with the same body get the same response from
`ParserHandler`, and the same response from `ExpandHandler`, byte for byte:
method, URL and headers of the request play no part. -/
theorem single_handlers_depend_on_body_only (lib : Postal) (r1 r2 : HttpRequest)
    (h : r1.Body = r2.Body) :
    (ParserHandler lib {} r1).response.body = (ParserHandler lib {} r2).response.body
    ∧ (ExpandHandler lib {} r1).response.body = (ExpandHandler lib {} r2).response.body
    ∧ (ParserHandler lib {} r1) = (ParserHandler lib {} r2)
    ∧ (ExpandHandler lib {} r1) = (ExpandHandler lib {} r2) := by
  refine ⟨?_, ?_, ?_, ?_⟩ <;> simp [ParserHandler, ExpandHandler, h]

/-- Witness of C9: the same body sent with different headers and URLs. -/
theorem single_handlers_depend_on_body_only_witness :
    (ParserHandler Postal.echo {}
        (HttpRequest.mk "POST" "/parser" [("X-Trace", "1")] "\x7b\"query\":\"5 Rue\"\x7d")).response.body
      = (ParserHandler Postal.echo {}
        (HttpRequest.mk "POST" "/parser?again" [] "\x7b\"query\":\"5 Rue\"\x7d")).response.body :=
  (single_handlers_depend_on_body_only Postal.echo
    (HttpRequest.mk "POST" "/parser" [("X-Trace", "1")] "\x7b\"query\":\"5 Rue\"\x7d")
    (HttpRequest.mk "POST" "/parser?again" [] "\x7b\"query\":\"5 Rue\"\x7d") rfl).1

/-- C10: the bulk endpoints agree with the single endpoints entry by entry.
For every batch request, every index `i` with entry `e`, and every single
request whose query is the query of `e`: the `parsed` value of item `i` of the
payload `BulkParserHandler` serializes is written exactly as the body
`ParserHandler` answers the single request with, and the `expansions` value of
item `i` of `BulkExpandHandler` exactly as the body of `ExpandHandler`; item `i`
as a whole is the object of the entry's query id and that value.  Consequently
an entry with the same query in any other batch, at any position, gets the same
`parsed` and `expansions` values. -/
theorem bulk_agrees_with_single (lib : Postal) (rb rb2 rs : HttpRequest) (i j : Nat)
    (e e2 : BulkQuery)
    (hi : (BulkRequest.Unmarshal rb.Body).1.Queries.index i = some e)
    (hj : (BulkRequest.Unmarshal rb2.Body).1.Queries.index j = some e2)
    (hq : e2.Query = e.Query)
    (hs : (Request.Unmarshal rs.Body {}).1.Query = e.Query) :
    (BulkParserHandler lib {} rb).response.body
        = (BulkParserHandler.loop lib (BulkRequest.Unmarshal rb.Body).1).1.Marshal
    ∧ (BulkExpandHandler lib {} rb).response.body
        = (BulkExpandHandler.loop lib (BulkRequest.Unmarshal rb.Body).1).1.Marshal
    ∧ ((BulkParserHandler.loop lib (BulkRequest.Unmarshal rb.Body).1).1.Items.index i).map
          (fun it => MarshalParsed it.Parsed)
        = some (ParserHandler lib {} rs).response.body
    ∧ ((BulkExpandHandler.loop lib (BulkRequest.Unmarshal rb.Body).1).1.Items.index i).map
          (fun it => MarshalStrings it.Expansions)
        = some (ExpandHandler lib {} rs).response.body
    ∧ ((BulkParserHandler.loop lib (BulkRequest.Unmarshal rb.Body).1).1.Items.index i).map
          BulkParseItem.Marshal
        = some ("\x7b\"query_id\":" ++ encodeString e.QueryId ++ ",\"parsed\":"
            ++ (ParserHandler lib {} rs).response.body ++ "\x7d")
    ∧ ((BulkExpandHandler.loop lib (BulkRequest.Unmarshal rb.Body).1).1.Items.index i).map
          BulkExpandItem.Marshal
        = some ("\x7b\"query_id\":" ++ encodeString e.QueryId ++ ",\"expansions\":"
            ++ (ExpandHandler lib {} rs).response.body ++ "\x7d")
    ∧ ((BulkParserHandler.loop lib (BulkRequest.Unmarshal rb2.Body).1).1.Items.index j).map
          (fun it => it.Parsed)
        = ((BulkParserHandler.loop lib (BulkRequest.Unmarshal rb.Body).1).1.Items.index i).map
          (fun it => it.Parsed)
    ∧ ((BulkExpandHandler.loop lib (BulkRequest.Unmarshal rb2.Body).1).1.Items.index j).map
          (fun it => it.Expansions)
        = ((BulkExpandHandler.loop lib (BulkRequest.Unmarshal rb.Body).1).1.Items.index i).map
          (fun it => it.Expansions) := by
  have hP : (ParserHandler lib {} rs).response.body = MarshalParsed (lib.ParseAddress e.Query) := by
    simp [ParserHandler, Outcome.response, ResponseWriter.Write, ResponseWriter.WriteHeader,
      ResponseWriter.SetHeader, hs]
  have hE : (ExpandHandler lib {} rs).response.body = MarshalStrings (lib.ExpandAddress e.Query) := by
    simp [ExpandHandler, Outcome.response, ResponseWriter.Write, ResponseWriter.WriteHeader,
      ResponseWriter.SetHeader, hs]
  have ip : (BulkParserHandler.loop lib (BulkRequest.Unmarshal rb.Body).1).1.Items.index i
      = some (BulkParseItem.of lib e) := by
    unfold GoSlice.index at hi ⊢
    rw [parse_loop_items]
    simp [hi]
  have ie : (BulkExpandHandler.loop lib (BulkRequest.Unmarshal rb.Body).1).1.Items.index i
      = some (BulkExpandItem.of lib e) := by
    unfold GoSlice.index at hi ⊢
    rw [expand_loop_items]
    simp [hi]
  have jp : (BulkParserHandler.loop lib (BulkRequest.Unmarshal rb2.Body).1).1.Items.index j
      = some (BulkParseItem.of lib e2) := by
    unfold GoSlice.index at hj ⊢
    rw [parse_loop_items]
    simp [hj]
  have je : (BulkExpandHandler.loop lib (BulkRequest.Unmarshal rb2.Body).1).1.Items.index j
      = some (BulkExpandItem.of lib e2) := by
    unfold GoSlice.index at hj ⊢
    rw [expand_loop_items]
    simp [hj]
  refine ⟨bulk_parser_body lib rb, bulk_expand_body lib rb, ?_, ?_, ?_, ?_, ?_, ?_⟩
  · rw [ip, hP]; rfl
  · rw [ie, hE]; rfl
  · rw [ip, hP]; rfl
  · rw [ie, hE]; rfl
  · rw [ip, jp]; simp [BulkParseItem.of, hq]
  · rw [ie, je]; simp [BulkExpandItem.of, hq]

set_option maxRecDepth 100000 in
/-- Witness of C10: the second entry of a batch of two against the single
request with the same query, and against the first entry of another batch. -/
theorem bulk_agrees_with_single_witness :
    (BulkRequest.Unmarshal (HttpRequest.mk "POST" "/bulk/parser" []
        "\x7b\"queries\":[\x7b\"query_id\":\"a\",\"query\":\"1 Rd\"\x7d,\x7b\"query_id\":\"b\",\"query\":\"2 Rd\"\x7d]\x7d").Body).1.Queries.index 1
        = some ⟨"b", "2 Rd"⟩
    ∧ ((BulkParserHandler.loop Postal.echo (BulkRequest.Unmarshal (HttpRequest.mk "POST" "/bulk/parser" []
        "\x7b\"queries\":[\x7b\"query_id\":\"a\",\"query\":\"1 Rd\"\x7d,\x7b\"query_id\":\"b\",\"query\":\"2 Rd\"\x7d]\x7d").Body).1).1.Items.index 1).map
          (fun it => MarshalParsed it.Parsed)
        = some (ParserHandler Postal.echo {}
            (HttpRequest.mk "POST" "/parser" [] "\x7b\"query\":\"2 Rd\"\x7d")).response.body :=
  ⟨by decide,
    (bulk_agrees_with_single Postal.echo
      (HttpRequest.mk "POST" "/bulk/parser" []
        "\x7b\"queries\":[\x7b\"query_id\":\"a\",\"query\":\"1 Rd\"\x7d,\x7b\"query_id\":\"b\",\"query\":\"2 Rd\"\x7d]\x7d")
      (HttpRequest.mk "POST" "/bulk/parser" []
        "\x7b\"queries\":[\x7b\"query_id\":\"z\",\"query\":\"2 Rd\"\x7d]\x7d")
      (HttpRequest.mk "POST" "/parser" [] "\x7b\"query\":\"2 Rd\"\x7d")
      1 0 ⟨"b", "2 Rd"⟩ ⟨"z", "2 Rd"⟩ (by decide) (by decide) rfl (by decide)).2.2.1⟩

end LibpostalRest
